import Mathlib

/-!
Shallow embedding of the pizzadelivery_api order-placement core:
`place_order` from `Orders/order_routes.py` and `paystack_webhook` from
`Payments/payment_routes.py`, over the data model of `models.py` and the
request schemas of `Schemas/schemas.py`.

Conventions:
* UUID identifiers are modelled as `Nat` (opaque identifiers; only equality
  is used by the code).
* Python `Decimal` values (price columns `Numeric(10,2)`) are modelled as
  exact integers in minor units (see `Decimal` below): both are exact,
  non-floating-point arithmetic.
* Raw HTTP bodies are modelled as `List Nat` (byte sequences).
* External primitives (HMAC-SHA512 hex digest, `json.loads`) are parameters
  of the handler, universally quantified in the theorems.
-/

namespace Pizza

mutual
/-- A JSON value, as produced by `json.loads`. -/
inductive Json where
  | null : Json
  | bool (b : Bool) : Json
  | num (n : Int) : Json
  | str (s : String) : Json
  | arr (elems : JsonArr) : Json
  | obj (fields : JsonFields) : Json
deriving DecidableEq

/-- A JSON array (list of JSON values). -/
inductive JsonArr where
  | nil : JsonArr
  | cons (hd : Json) (tl : JsonArr) : JsonArr
deriving DecidableEq

/-- The key/value fields of a JSON object, in insertion order. -/
inductive JsonFields where
  | nil : JsonFields
  | cons (key : String) (val : Json) (tl : JsonFields) : JsonFields
deriving DecidableEq
end

/-- First value bound to `k`, as Python dict lookup. -/
def JsonFields.lookup : JsonFields → String → Option Json
  | .nil, _ => none
  | .cons key val tl, k => if key = k then some val else tl.lookup k

/-- Python subscript access `j[k]` on a parsed JSON value: a `KeyError`
when the key is absent from a dict, a `TypeError` when `j` is not a dict. -/
def Json.getKey : Json → String → Except String Json
  | .obj fields, k =>
      match fields.lookup k with
      | some v => .ok v
      | none => .error "KeyError"
  | _, _ => .error "TypeError"

/-! ## Data model (`models.py`), restricted to the columns the core reads -/

/-- A Python `Decimal` amount as read from a `Numeric(10,2)` column,
modelled in minor units (hundredths) as an exact integer. The code's only
money operations are `Decimal + Decimal` and `Decimal * int`, under which
the minor-unit representation is an exact isomorphism (scale by 100):
no rounding exists in either representation. -/
abbrev Decimal := Int

/-- `addresses` row (`models.py Address`): the core reads only id and owner. -/
structure Address where
  id : Nat
  user_id : Nat
deriving DecidableEq

/-- `products` row (`models.py Product`): id, name and `base_price` (a
`Numeric(10,2)` column, read through `Decimal`). -/
structure Product where
  id : Nat
  name : String
  base_price : Decimal
deriving DecidableEq

/-- `product_variants` row (`models.py ProductVariant`). -/
structure ProductVariant where
  id : Nat
  product_id : Nat
  name : String
  price_modifier : Decimal
deriving DecidableEq

/-- `inventory` row (`models.py Inventory`, lines 317–325): one row per
product, an integer quantity and an informational threshold. -/
structure Inventory where
  product_id : Nat
  quantity : Int
  low_stock_threshold : Int
deriving DecidableEq

/-- `order_items` row (`models.py OrderItem`). -/
structure OrderItem where
  product_id : Nat
  variant_id : Option Nat
  quantity : Int
  unit_price : Decimal
deriving DecidableEq

/-- `orders` row (`models.py Order`) together with its owned items. -/
structure Order where
  id : Nat
  user_id : Nat
  total_amount : Decimal
  delivery_address_id : Nat
  status : String
  items : List OrderItem
deriving DecidableEq

/-- `payments` row (`models.py Payment`). -/
structure Payment where
  order_id : Nat
  amount : Decimal
  status : String
  method : String
  transaction_id : String
  gateway_response : Option Json
deriving DecidableEq

/-- The persistent store: the tables the order-placement core touches. -/
structure DBState where
  addresses : List Address
  products : List Product
  variants : List ProductVariant
  inventories : List Inventory
  orders : List Order
  payments : List Payment
deriving DecidableEq

/-! ## Request schemas (`Schemas/schemas.py`, lines 298–305) -/

/-- `OrderItemCreateModel`: one requested line. -/
structure OrderItemCreateModel where
  product_id : Nat
  variant_id : Option Nat
  quantity : Int
deriving DecidableEq

/-- `OrderCreateModel`: the placement request body. -/
structure OrderCreateModel where
  delivery_address_id : Nat
  items : List OrderItemCreateModel
deriving DecidableEq

/-- Pydantic validation of one line: `quantity: int = Field(..., gt=0)`. -/
def OrderItemCreateModel.valid (it : OrderItemCreateModel) : Bool :=
  decide (0 < it.quantity)

/-- Pydantic validation of the request body: each line is validated; the
`items: List[OrderItemCreateModel]` field itself carries no constraint
(no `min_items`/`min_length`), so an empty list passes validation. -/
def OrderCreateModel.valid (od : OrderCreateModel) : Bool :=
  od.items.all OrderItemCreateModel.valid

/-! ## Route-level error and SQLAlchemy result primitives -/

/-- A FastAPI `HTTPException`. -/
structure HTTPException where
  status_code : Nat
  detail : String
deriving DecidableEq

/-- An error escaping a route body: an explicitly raised `HTTPException`,
or an unhandled Python exception recorded by its name. -/
inductive PyErr where
  | http (e : HTTPException)
  | unhandled (msg : String)
deriving DecidableEq

/-- SQLAlchemy `Result.scalar_one_or_none` on the rows a query matched:
raises `MultipleResultsFound` past one row. -/
def scalar_one_or_none {α : Type} (rows : List α) : Except String (Option α) :=
  match rows with
  | [] => .ok none
  | [x] => .ok (some x)
  | _ => .error "MultipleResultsFound"

/-- SQLAlchemy `Result.scalar_one`: exactly one row or an exception. -/
def scalar_one {α : Type} (rows : List α) : Except String α :=
  match rows with
  | [] => .error "NoResultFound"
  | [x] => .ok x
  | _ => .error "MultipleResultsFound"

/-! ## `place_order` (`Orders/order_routes.py`, lines 80–230) -/

/-- The 409 detail raised at line 120:
`f"Insufficient stock for product {item_data.product_id}"`. -/
def insufficientStockDetail (pid : Nat) : String :=
  "Insufficient stock for product " ++ toString pid

/-- The body of the `for item_data in order_data.items` loop of
`place_order` (lines 106–169), run inside `async with db.begin()`:
(A) `SELECT ... FOR UPDATE` on the inventory row of the line's product,
failing 409 when the row is absent or holds less than the requested
quantity; (B) fetch the product, 404 when absent; (C) fetch the optional
variant scoped to the product, 404 when absent; then accumulate
`total += (base_price + price_modifier) * quantity`, deduct the stock in
place on the locked row (`inventory.quantity -= item_data.quantity`; the
guarded map touches exactly the row the lock query matched, since
`scalar_one_or_none` established its uniqueness), and append the
`OrderItem` snapshot. -/
def processItem (products : List Product) (variants : List ProductVariant)
    (invs : List Inventory) (total : Decimal) (built : List OrderItem)
    (item : OrderItemCreateModel) :
    Except PyErr (List Inventory × Decimal × List OrderItem) :=
  let pid := item.product_id
  match scalar_one_or_none (invs.filter (fun i => i.product_id == pid)) with
  | .error m => .error (.unhandled m)
  | .ok none =>
      .error (.http ⟨409, insufficientStockDetail pid⟩)
  | .ok (some inv) =>
    if inv.quantity < item.quantity then
      .error (.http ⟨409, insufficientStockDetail pid⟩)
    else
      match scalar_one_or_none (products.filter (fun p => p.id == pid)) with
      | .error m => .error (.unhandled m)
      | .ok none =>
          .error (.http ⟨404, "Product " ++ toString pid ++ " not found"⟩)
      | .ok (some product) =>
        let price_modifier : Except PyErr Decimal :=
          match item.variant_id with
          | none => .ok 0
          | some vid =>
            match scalar_one_or_none (variants.filter
                (fun v => v.id == vid && v.product_id == product.id)) with
            | .error m => .error (.unhandled m)
            | .ok none =>
                .error (.http ⟨404, "Variant " ++ toString vid
                  ++ " not found for product " ++ toString product.id⟩)
            | .ok (some v) => .ok v.price_modifier
        match price_modifier with
        | .error e => .error e
        | .ok pm =>
          let unit_price := product.base_price + pm
          let total' := total + unit_price * item.quantity
          let invs' := invs.map (fun i =>
            if i.product_id == pid then
              { i with quantity := i.quantity - item.quantity }
            else i)
          let built' := built ++ [⟨pid, item.variant_id, item.quantity, unit_price⟩]
          .ok (invs', total', built')

/-- The loop over all lines, in request order: each line runs
`processItem`, and its `SELECT ... FOR UPDATE` records the line's product
id in the lock trace whether or not the line aborts. -/
def processItems (products : List Product) (variants : List ProductVariant) :
    List Inventory → Decimal → List OrderItem → List OrderItemCreateModel →
    List Nat × Except PyErr (List Inventory × Decimal × List OrderItem)
  | invs, total, built, [] => ([], .ok (invs, total, built))
  | invs, total, built, item :: rest =>
    match processItem products variants invs total built item with
    | .error e => ([item.product_id], .error e)
    | .ok (invs', total', built') =>
      let (locks, r) := processItems products variants invs' total' built' rest
      (item.product_id :: locks, r)

/-- The route's `except HTTPException: raise` / `except Exception: ... 500`
clauses (lines 223–230): an `HTTPException` passes through, anything else
becomes the generic 500. -/
def toRouteError : PyErr → PyErr
  | .http e => .http e
  | .unhandled _ =>
      .http ⟨500, "An internal error occurred while processing your order."⟩

/-- One response line (`OrderItemResponseModel` of `Schemas/schemas_old.py`;
that file is absent from the tree — fields are those the route constructs
at lines 213–218). -/
structure OrderItemResponseModel where
  product_name : String
  variant_name : Option String
  quantity : Int
  unit_price : Decimal
deriving DecidableEq

/-- The success payload (`OrderResponseModel` of `Schemas/schemas_old.py`,
absent from the tree; fields as constructed at lines 205–221, timestamps
omitted). -/
structure OrderResponseModel where
  total_amount : Decimal
  order_status : String
  delivery_address_id : Nat
  payment_reference : String
  items : List OrderItemResponseModel
deriving DecidableEq

/-- `publish_order_created_event` (lines 44–52): its one observable effect
is the notification itself, recorded as a trace entry carrying the order
id it was called with. -/
def publish_order_created_event (order_id : Nat) : List Nat :=
  [order_id]

instance {ε α : Type} [DecidableEq ε] [DecidableEq α] :
    DecidableEq (Except ε α) := fun a b =>
  match a, b with
  | .ok x, .ok y =>
      if h : x = y then isTrue (congrArg Except.ok h)
      else isFalse (fun c => h (Except.ok.inj c))
  | .error x, .error y =>
      if h : x = y then isTrue (congrArg Except.error h)
      else isFalse (fun c => h (Except.error.inj c))
  | .ok _, .error _ => isFalse (fun c => Except.noConfusion c)
  | .error _, .ok _ => isFalse (fun c => Except.noConfusion c)

/-- Outcome of one `place_order` request: the response or the escaping
error, the post-request store (the pre-request store whenever the
transaction aborted), the product ids locked by executed
`SELECT ... FOR UPDATE` statements in execution order, and the trace of
`publish_order_created_event` calls. -/
structure PlaceResult where
  response : Except PyErr OrderResponseModel
  state : DBState
  locks : List Nat
  events : List Nat
deriving DecidableEq

/-- `place_order` (lines 80–230). `current_user_id` is the authenticated
user; `new_order_id` models the `uuid4` primary key the `Order` row gets;
`transaction_reference` models the generated `PIZZA-...` reference
(line 88). Address validation runs before the `try`; the item loop, order
and payment creation run inside `async with db.begin()`, whose exit on an
exception rolls every write back; the response is rebuilt from a reload
after the commit. The route never calls `publish_order_created_event`, so
the event trace is built empty. -/
def place_order (current_user_id : Nat) (new_order_id : Nat)
    (transaction_reference : String) (order_data : OrderCreateModel)
    (st : DBState) : PlaceResult :=
  match scalar_one_or_none (st.addresses.filter (fun a =>
      a.id == order_data.delivery_address_id && a.user_id == current_user_id)) with
  | .error m => ⟨.error (.unhandled m), st, [], []⟩
  | .ok none =>
      ⟨.error (.http ⟨404, "Delivery address not found or unauthorized"⟩), st, [], []⟩
  | .ok (some delivery_address) =>
    let res := processItems st.products st.variants st.inventories 0 [] order_data.items
    match res.2 with
    | .error e => ⟨.error (toRouteError e), st, res.1, []⟩
    | .ok (invs', total_amount, order_items_to_add) =>
      let new_order : Order :=
        ⟨new_order_id, current_user_id, total_amount, delivery_address.id,
          "PENDING", order_items_to_add⟩
      let new_payment : Payment :=
        ⟨new_order_id, total_amount, "PENDING", "DEBIT_CARD",
          transaction_reference, none⟩
      let st' : DBState :=
        { st with inventories := invs',
                  orders := st.orders ++ [new_order],
                  payments := st.payments ++ [new_payment] }
      match scalar_one (st'.orders.filter (fun o => o.id == new_order_id)) with
      | .error m => ⟨.error (toRouteError (.unhandled m)), st', res.1, []⟩
      | .ok final_order =>
        ⟨.ok
          { total_amount := final_order.total_amount,
            order_status := final_order.status,
            delivery_address_id := final_order.delivery_address_id,
            payment_reference := transaction_reference,
            items := final_order.items.map (fun it =>
              { product_name :=
                  ((st'.products.find? (fun p => p.id == it.product_id)).map
                    Product.name).getD "",
                variant_name := it.variant_id.bind (fun vid =>
                  (st'.variants.find? (fun v => v.id == vid)).map
                    ProductVariant.name),
                quantity := it.quantity,
                unit_price := it.unit_price }) },
          st', res.1, []⟩

/-! ## `paystack_webhook` (`Payments/payment_routes.py`, lines 15–69) -/

/-- The module-level shared secret (payment_routes.py line 13). -/
def PAYSTACK_SECRET_KEY : String := "sk_live_xxxxxxx"

/-- The handler's acknowledgment, `{"status": "success"}` (line 69). -/
def ackSuccess : Json :=
  .obj (.cons "status" (.str "success") .nil)

/-- Outcome of one webhook delivery: the acknowledgment or the escaping
error, the post-request store, and whether `json.loads` was reached. -/
structure WebhookResult where
  response : Except PyErr Json
  state : DBState
  parsed : Bool
deriving DecidableEq

/-- `paystack_webhook` (lines 15–69). `hmacHex secret body` stands for the
external primitive `hmac.new(secret.encode(), body, hashlib.sha512).hexdigest()`
and `jsonLoads body` for `json.loads(body)` (`none` = `JSONDecodeError`);
both are parameters of the embedding. The handler checks the signature
header against the digest of the exact raw body before any parsing; only a
`charge.success` event drives state. The source mutates the single ORM row
`scalar_one_or_none` fetched; that is rendered as a guarded map, which
touches exactly that row because the guard established at most one match.
All mutations commit together at line 67; an exception before that commit
leaves the store unchanged. -/
def paystack_webhook (hmacHex : String → List Nat → String)
    (jsonLoads : List Nat → Option Json)
    (body : List Nat) (x_paystack_signature : Option String)
    (st : DBState) : WebhookResult :=
  match x_paystack_signature with
  | none => ⟨.error (.http ⟨401, "No signature"⟩), st, false⟩
  | some sig =>
    let hash_check := hmacHex PAYSTACK_SECRET_KEY body
    if hash_check ≠ sig then
      ⟨.error (.http ⟨401, "Invalid signature"⟩), st, false⟩
    else
      match jsonLoads body with
      | none => ⟨.error (.unhandled "JSONDecodeError"), st, true⟩
      | some event_data =>
        match event_data.getKey "event" with
        | .error m => ⟨.error (.unhandled m), st, true⟩
        | .ok ev =>
          if ev = Json.str "charge.success" then
            match event_data.getKey "data" with
            | .error m => ⟨.error (.unhandled m), st, true⟩
            | .ok data =>
              match data.getKey "reference" with
              | .error m => ⟨.error (.unhandled m), st, true⟩
              | .ok transaction_ref =>
                match scalar_one_or_none (st.payments.filter (fun p =>
                    Json.str p.transaction_id == transaction_ref)) with
                | .error m => ⟨.error (.unhandled m), st, true⟩
                | .ok none => ⟨.ok ackSuccess, st, true⟩
                | .ok (some payment_record) =>
                  let payments' := st.payments.map (fun q =>
                    if Json.str q.transaction_id == transaction_ref then
                      { q with status := "COMPLETED",
                               gateway_response := some data }
                    else q)
                  match scalar_one_or_none (st.orders.filter (fun o =>
                      o.id == payment_record.order_id)) with
                  | .error m => ⟨.error (.unhandled m), st, true⟩
                  | .ok orderOpt =>
                    let orders' :=
                      match orderOpt with
                      | some _ => st.orders.map (fun o =>
                          if o.id == payment_record.order_id then
                            { o with status := "CONFIRMED" }
                          else o)
                      | none => st.orders
                    ⟨.ok ackSuccess,
                      { st with payments := payments', orders := orders' },
                      true⟩
          else ⟨.ok ackSuccess, st, true⟩

/-! ## Spec-side definitions (formalizing the claims' vocabulary) -/

/-- `Σ item.quantity × item.unit_price` over a list of order items. -/
def sumItems (items : List OrderItem) : Decimal :=
  (items.map (fun it => it.quantity * it.unit_price)).sum

/-- The pricing relation for one stored item: its `unit_price` equals the
base price of its product plus the `price_modifier` of its variant
(0 when no variant was requested). -/
def priceOkB (products : List Product) (variants : List ProductVariant)
    (it : OrderItem) : Bool :=
  products.any (fun p => p.id == it.product_id &&
    match it.variant_id with
    | none => it.unit_price == p.base_price
    | some vid => variants.any (fun v => v.id == vid && v.product_id == p.id &&
        it.unit_price == p.base_price + v.price_modifier))

/-- A verified webhook body that is not a JSON object with an `event` key,
or that announces `charge.success` without a `data` object carrying a
`reference`: every such body makes the handler's subscript accesses raise. -/
def malformedBody (parsed : Option Json) : Bool :=
  match parsed with
  | none => true
  | some ed =>
    match ed.getKey "event" with
    | .error _ => true
    | .ok ev =>
      if ev = Json.str "charge.success" then
        match ed.getKey "data" with
        | .error _ => true
        | .ok d =>
          match d.getKey "reference" with
          | .error _ => true
          | .ok _ => false
      else false

/-! ## Concrete fixtures, used by witnesses and counterexamples -/

/-- An address owned by user 10. -/
def addr1 : Address := ⟨1, 10⟩

/-- A product priced 10.00 (spec §8's product A). -/
def prodA : Product := ⟨7, "Margherita", 1000⟩

/-- A second product, priced 8.00, with a larger id. -/
def prodB : Product := ⟨9, "Pepperoni", 800⟩

/-- A variant of `prodA` with modifier 2.00 (spec §8's example). -/
def varA : ProductVariant := ⟨3, 7, "Large", 200⟩

/-- Five units of `prodA` in stock. -/
def invA5 : Inventory := ⟨7, 5, 5⟩

/-- Two units of `prodA` in stock (spec §8's product-B example). -/
def invA2 : Inventory := ⟨7, 2, 5⟩

/-- Four units of `prodB` in stock. -/
def invB4 : Inventory := ⟨9, 4, 5⟩

/-- Store for the successful-placement scenarios. -/
def baseState : DBState := ⟨[addr1], [prodA], [varA], [invA5], [], []⟩

/-- Store with only two units in stock. -/
def lowState : DBState := ⟨[addr1], [prodA], [], [invA2], [], []⟩

/-- Store with two products in stock. -/
def twoState : DBState :=
  ⟨[addr1], [prodA, prodB], [], [invA5, invB4], [], []⟩

/-- The `data` object of a Paystack `charge.success` event for reference
`T1`. -/
def jData : Json := .obj (.cons "reference" (.str "T1") .nil)

/-- A full `charge.success` body for reference `T1`. -/
def jBody : Json :=
  .obj (.cons "event" (.str "charge.success") (.cons "data" jData .nil))

/-- A `json.loads` oracle returning `jBody` for every byte string. -/
def jLoadsT1 : List Nat → Option Json := fun _ => some jBody

/-- A `json.loads` oracle returning an empty JSON object. -/
def jLoadsEmpty : List Nat → Option Json := fun _ => some (.obj .nil)

/-- An HMAC oracle whose digest is the constant `"SIG"`. -/
def hmacConst : String → List Nat → String := fun _ _ => "SIG"

/-- A payment for order 100, reference `T1`, already `FAILED` (not
`PENDING`). -/
def payFailed : Payment := ⟨100, 3600, "FAILED", "DEBIT_CARD", "T1", none⟩

/-- A payment for order 100, reference `T1`, still `PENDING`. -/
def payPending : Payment := ⟨100, 3600, "PENDING", "DEBIT_CARD", "T1", none⟩

/-- Order 100, still `PENDING`. -/
def ordPending : Order := ⟨100, 10, 3600, 1, "PENDING", []⟩

/-- Webhook store holding a `FAILED` payment for reference `T1`. -/
def wStateFailed : DBState := ⟨[], [], [], [], [ordPending], [payFailed]⟩

/-- Webhook store holding a `PENDING` payment for reference `T1`. -/
def wStatePending : DBState := ⟨[], [], [], [], [ordPending], [payPending]⟩

/-! ## Helper lemmas -/

theorem scalar_one_or_none_ok_some {α : Type} {rows : List α} {x : α}
    (h : scalar_one_or_none rows = .ok (some x)) : rows = [x] := by
  match rows with
  | [] => simp [scalar_one_or_none] at h
  | [y] =>
    simp only [scalar_one_or_none, Except.ok.injEq, Option.some.injEq] at h
    rw [h]
  | a :: b :: t => simp [scalar_one_or_none] at h

theorem scalar_one_or_none_ok_none {α : Type} {rows : List α}
    (h : scalar_one_or_none rows = .ok none) : rows = [] := by
  match rows with
  | [] => rfl
  | [y] => simp [scalar_one_or_none] at h
  | a :: b :: t => simp [scalar_one_or_none] at h

theorem processItems_append_error (ps : List Product) (vs : List ProductVariant)
    (l₁ : List OrderItemCreateModel) :
    ∀ (invs : List Inventory) (total : Decimal) (built : List OrderItem)
      (lks : List Nat) (e : PyErr) (l₂ : List OrderItemCreateModel),
    processItems ps vs invs total built l₁ = (lks, .error e) →
    processItems ps vs invs total built (l₁ ++ l₂) = (lks, .error e) := by
  induction l₁ with
  | nil => intro invs total built lks e l₂ h; simp [processItems] at h
  | cons it rest ih =>
    intro invs total built lks e l₂ h
    simp only [processItems, List.cons_append] at h ⊢
    cases hstep : processItem ps vs invs total built it with
    | error e' => simp only [hstep] at h ⊢; exact h
    | ok acc =>
      obtain ⟨i', t', b'⟩ := acc
      simp only [hstep] at h ⊢
      cases h₂ : processItems ps vs i' t' b' rest with
      | mk lks₂ r =>
        simp only [h₂] at h
        obtain ⟨h₃, h₄⟩ := Prod.mk.injEq .. ▸ h
        have hih := ih i' t' b' lks₂ e l₂ (by rw [h₂, h₄])
        simp only [List.append_eq, hih, ← h₃]

theorem processItems_append_ok (ps : List Product) (vs : List ProductVariant)
    (l₁ : List OrderItemCreateModel) :
    ∀ (invs : List Inventory) (total : Decimal) (built : List OrderItem)
      (lks : List Nat) (i' : List Inventory) (t' : Decimal)
      (b' : List OrderItem) (l₂ : List OrderItemCreateModel),
    processItems ps vs invs total built l₁ = (lks, .ok (i', t', b')) →
    processItems ps vs invs total built (l₁ ++ l₂) =
      (lks ++ (processItems ps vs i' t' b' l₂).1,
        (processItems ps vs i' t' b' l₂).2) := by
  induction l₁ with
  | nil =>
    intro invs total built lks i' t' b' l₂ h
    simp only [processItems] at h
    obtain ⟨h₁, h₂⟩ := Prod.mk.injEq .. ▸ h
    obtain ⟨ha, hb, hc⟩ : invs = i' ∧ total = t' ∧ built = b' := by
      have := Except.ok.inj h₂
      exact ⟨congrArg (fun x => x.1) this,
        congrArg (fun x => x.2.1) this, congrArg (fun x => x.2.2) this⟩
    subst ha hb hc
    simp [← h₁]
  | cons it rest ih =>
    intro invs total built lks i' t' b' l₂ h
    simp only [processItems, List.cons_append] at h ⊢
    cases hstep : processItem ps vs invs total built it with
    | error e' =>
      simp only [hstep] at h
      exact absurd (Prod.mk.injEq .. ▸ h).2 (by simp)
    | ok acc =>
      obtain ⟨i1, t1, b1⟩ := acc
      simp only [hstep] at h ⊢
      cases h₂ : processItems ps vs i1 t1 b1 rest with
      | mk lks₂ r =>
        simp only [h₂] at h
        obtain ⟨h₃, h₄⟩ := Prod.mk.injEq .. ▸ h
        have hih := ih i1 t1 b1 lks₂ i' t' b' l₂ (by rw [h₂, h₄])
        simp only [List.append_eq, hih, ← h₃, List.cons_append]

theorem processItems_ok_locks (ps : List Product) (vs : List ProductVariant)
    (items : List OrderItemCreateModel) :
    ∀ (invs : List Inventory) (total : Decimal) (built : List OrderItem)
      (lks : List Nat) (out : List Inventory × Decimal × List OrderItem),
    processItems ps vs invs total built items = (lks, .ok out) →
    lks = items.map OrderItemCreateModel.product_id := by
  induction items with
  | nil =>
    intro invs total built lks out h
    simp only [processItems] at h
    simp [← (Prod.mk.injEq .. ▸ h).1]
  | cons it rest ih =>
    intro invs total built lks out h
    simp only [processItems] at h
    cases hstep : processItem ps vs invs total built it with
    | error e =>
      simp only [hstep] at h
      exact absurd (Prod.mk.injEq .. ▸ h).2 (by simp)
    | ok acc =>
      obtain ⟨i', t', b'⟩ := acc
      simp only [hstep] at h
      cases h₂ : processItems ps vs i' t' b' rest with
      | mk lks₂ r =>
        simp only [h₂] at h
        obtain ⟨h₃, h₄⟩ := Prod.mk.injEq .. ▸ h
        rw [← h₃, List.map_cons, ih i' t' b' lks₂ out (by rw [h₂, h₄])]

/-- Everything a successful `processItem` run establishes: the inventory
row was fetched uniquely and covers the requested quantity, the product
was fetched uniquely, the price modifier comes from the scoped variant (or
is 0), and the outputs are the decremented inventories, the incremented
total and the appended snapshot. -/
theorem processItem_ok_spec (ps : List Product) (vs : List ProductVariant)
    (invs : List Inventory) (total : Decimal) (built : List OrderItem)
    (it : OrderItemCreateModel) (invs' : List Inventory) (total' : Decimal)
    (built' : List OrderItem)
    (h : processItem ps vs invs total built it = .ok (invs', total', built')) :
    ∃ inv product pm,
      invs.filter (fun i => i.product_id == it.product_id) = [inv] ∧
      it.quantity ≤ inv.quantity ∧
      ps.filter (fun p => p.id == it.product_id) = [product] ∧
      ((it.variant_id = none ∧ pm = 0) ∨
        (∃ vid v, it.variant_id = some vid ∧
          vs.filter (fun w => w.id == vid && w.product_id == product.id) = [v] ∧
          pm = v.price_modifier)) ∧
      invs' = invs.map (fun i =>
        if i.product_id == it.product_id then
          { i with quantity := i.quantity - it.quantity }
        else i) ∧
      total' = total + (product.base_price + pm) * it.quantity ∧
      built' = built ++
        [⟨it.product_id, it.variant_id, it.quantity, product.base_price + pm⟩] := by
  simp only [processItem] at h
  cases hI : scalar_one_or_none (invs.filter (fun i => i.product_id == it.product_id)) with
  | error m => simp [hI] at h
  | ok invOpt =>
    simp only [hI] at h
    cases invOpt with
    | none => simp at h
    | some inv =>
      simp only at h
      by_cases hq : inv.quantity < it.quantity
      · simp [hq] at h
      · simp only [if_neg hq] at h
        cases hP : scalar_one_or_none (ps.filter (fun p => p.id == it.product_id)) with
        | error m => simp [hP] at h
        | ok prodOpt =>
          simp only [hP] at h
          cases prodOpt with
          | none => simp at h
          | some product =>
            simp only at h
            refine ⟨inv, product, ?_⟩
            cases hv : it.variant_id with
            | none =>
              simp only [hv] at h
              obtain ⟨h₁, h₂, h₃⟩ :
                  invs.map (fun i =>
                    if i.product_id == it.product_id then
                      { i with quantity := i.quantity - it.quantity }
                    else i) = invs' ∧
                  total + (product.base_price + 0) * it.quantity = total' ∧
                  built ++ [⟨it.product_id, none, it.quantity,
                    product.base_price + 0⟩] = built' := by
                have := Except.ok.inj h
                exact ⟨congrArg (fun x => x.1) this,
                  congrArg (fun x => x.2.1) this,
                  congrArg (fun x => x.2.2) this⟩
              exact ⟨0, scalar_one_or_none_ok_some hI, not_lt.mp hq,
                scalar_one_or_none_ok_some hP, Or.inl ⟨rfl, rfl⟩,
                h₁.symm, h₂.symm, h₃.symm⟩
            | some vid =>
              simp only [hv] at h
              cases hV : scalar_one_or_none (vs.filter
                  (fun w => w.id == vid && w.product_id == product.id)) with
              | error m => simp [hV] at h
              | ok vOpt =>
                simp only [hV] at h
                cases vOpt with
                | none => simp at h
                | some v =>
                  simp only at h
                  obtain ⟨h₁, h₂, h₃⟩ :
                      invs.map (fun i =>
                        if i.product_id == it.product_id then
                          { i with quantity := i.quantity - it.quantity }
                        else i) = invs' ∧
                      total + (product.base_price + v.price_modifier) * it.quantity
                        = total' ∧
                      built ++ [⟨it.product_id, some vid, it.quantity,
                        product.base_price + v.price_modifier⟩] = built' := by
                    have := Except.ok.inj h
                    exact ⟨congrArg (fun x => x.1) this,
                      congrArg (fun x => x.2.1) this,
                      congrArg (fun x => x.2.2) this⟩
                  exact ⟨v.price_modifier, scalar_one_or_none_ok_some hI,
                    not_lt.mp hq, scalar_one_or_none_ok_some hP,
                    Or.inr ⟨vid, v, rfl, scalar_one_or_none_ok_some hV, rfl⟩,
                    h₁.symm, h₂.symm, h₃.symm⟩

theorem priceOkB_of_parts (ps : List Product) (vs : List ProductVariant)
    (pid : Nat) (q : Int) (vidOpt : Option Nat) (product : Product)
    (pm : Decimal)
    (hp : ps.filter (fun p => p.id == pid) = [product])
    (hvar : (vidOpt = none ∧ pm = 0) ∨
      (∃ vid v, vidOpt = some vid ∧
        vs.filter (fun w => w.id == vid && w.product_id == product.id) = [v] ∧
        pm = v.price_modifier)) :
    priceOkB ps vs ⟨pid, vidOpt, q, product.base_price + pm⟩ = true := by
  have hmem : product ∈ ps ∧ (product.id == pid) = true :=
    List.mem_filter.mp (by rw [hp]; exact List.mem_singleton_self product)
  simp only [priceOkB, List.any_eq_true]
  refine ⟨product, hmem.1, ?_⟩
  rcases hvar with ⟨hnone, hpm⟩ | ⟨vid, v, hsome, hvf, hpm⟩
  · subst hnone hpm
    simp [hmem.2]
  · subst hsome hpm
    have hv : v ∈ vs ∧ (v.id == vid && v.product_id == product.id) = true :=
      List.mem_filter.mp (by rw [hvf]; exact List.mem_singleton_self v)
    obtain ⟨hv1, hv2⟩ := Bool.and_eq_true .. |>.mp hv.2
    simp only [hmem.2, Bool.true_and, List.any_eq_true]
    exact ⟨v, hv.1, by simp [hv1, hv2]⟩

/-- A successful loop run appends exactly the processed snapshots, adds
exactly their `Σ quantity × unit_price` to the running total, and prices
every appended snapshot from its product and optional variant. -/
theorem processItems_ok_items (ps : List Product) (vs : List ProductVariant)
    (items : List OrderItemCreateModel) :
    ∀ (invs : List Inventory) (total : Decimal) (built : List OrderItem)
      (lks : List Nat) (invs' : List Inventory) (total' : Decimal)
      (built' : List OrderItem),
    processItems ps vs invs total built items = (lks, .ok (invs', total', built')) →
    ∃ xs, built' = built ++ xs ∧ total' = total + sumItems xs ∧
      ∀ x ∈ xs, priceOkB ps vs x = true := by
  induction items with
  | nil =>
    intro invs total built lks invs' total' built' h
    simp only [processItems] at h
    obtain ⟨h₁, h₂⟩ := Prod.mk.injEq .. ▸ h
    have h₃ := Except.ok.inj h₂
    injection h₃ with ha h₃'
    injection h₃' with hb hc
    subst ha hb hc
    exact ⟨[], by simp, by simp [sumItems], by simp⟩
  | cons it rest ih =>
    intro invs total built lks invs' total' built' h
    simp only [processItems] at h
    cases hstep : processItem ps vs invs total built it with
    | error e =>
      simp only [hstep] at h
      exact absurd (Prod.mk.injEq .. ▸ h).2 (by simp)
    | ok acc =>
      obtain ⟨i1, t1, b1⟩ := acc
      simp only [hstep] at h
      cases h₂ : processItems ps vs i1 t1 b1 rest with
      | mk lks₂ r =>
        simp only [h₂] at h
        obtain ⟨h₃, h₄⟩ := Prod.mk.injEq .. ▸ h
        obtain ⟨xs, hb, ht, hok⟩ :=
          ih i1 t1 b1 lks₂ invs' total' built' (by rw [h₂, h₄])
        obtain ⟨inv, product, pm, _, _, hpf, hvar, _, ht1, hb1⟩ :=
          processItem_ok_spec ps vs invs total built it i1 t1 b1 hstep
        refine ⟨⟨it.product_id, it.variant_id, it.quantity,
          product.base_price + pm⟩ :: xs, ?_, ?_, ?_⟩
        · rw [hb, hb1]; simp
        · rw [ht, ht1]
          simp only [sumItems, List.map_cons, List.sum_cons]
          ring
        · intro x hx
          rcases List.mem_cons.mp hx with hx | hx
          · rw [hx]; exact priceOkB_of_parts ps vs it.product_id it.quantity
              it.variant_id product pm hpf hvar
          · exact hok x hx

/-- A successful loop run keeps every inventory quantity nonnegative. -/
theorem processItems_nonneg (ps : List Product) (vs : List ProductVariant)
    (items : List OrderItemCreateModel) :
    ∀ (invs : List Inventory) (total : Decimal) (built : List OrderItem)
      (lks : List Nat) (invs' : List Inventory) (total' : Decimal)
      (built' : List OrderItem),
    processItems ps vs invs total built items = (lks, .ok (invs', total', built')) →
    (∀ i ∈ invs, 0 ≤ i.quantity) → (∀ i ∈ invs', 0 ≤ i.quantity) := by
  induction items with
  | nil =>
    intro invs total built lks invs' total' built' h hpos
    simp only [processItems] at h
    have h₃ := Except.ok.inj (Prod.mk.injEq .. ▸ h).2
    injection h₃ with ha h₃'
    injection h₃' with hb hc
    subst ha
    exact hpos
  | cons it rest ih =>
    intro invs total built lks invs' total' built' h hpos
    simp only [processItems] at h
    cases hstep : processItem ps vs invs total built it with
    | error e =>
      simp only [hstep] at h
      exact absurd (Prod.mk.injEq .. ▸ h).2 (by simp)
    | ok acc =>
      obtain ⟨i1, t1, b1⟩ := acc
      simp only [hstep] at h
      cases h₂ : processItems ps vs i1 t1 b1 rest with
      | mk lks₂ r =>
        simp only [h₂] at h
        obtain ⟨h₃, h₄⟩ := Prod.mk.injEq .. ▸ h
        refine ih i1 t1 b1 lks₂ invs' total' built' (by rw [h₂, h₄]) ?_
        obtain ⟨inv, product, pm, hif, hq, _, _, hi1, _, _⟩ :=
          processItem_ok_spec ps vs invs total built it i1 t1 b1 hstep
        rw [hi1]
        intro j hj
        obtain ⟨j₀, hj₀, hj₁⟩ := List.mem_map.mp hj
        by_cases hp : (j₀.product_id == it.product_id) = true
        · have : j₀ ∈ invs.filter (fun i => i.product_id == it.product_id) :=
            List.mem_filter.mpr ⟨hj₀, hp⟩
          rw [hif] at this
          have hj₀inv : j₀ = inv := List.mem_singleton.mp this
          rw [← hj₁, if_pos hp]
          show 0 ≤ j₀.quantity - it.quantity
          rw [hj₀inv]
          omega
        · rw [← hj₁, if_neg hp]
          exact hpos j₀ hj₀

/-- With a fresh order id, the post-commit reload by id finds exactly the
appended order. -/
theorem reload_ok (orders : List Order) (oid : Nat) (o : Order)
    (ho : o.id = oid) (hfresh : oid ∉ orders.map Order.id) :
    scalar_one ((orders ++ [o]).filter (fun x => x.id == oid)) = .ok o := by
  rw [List.filter_append]
  have h1 : orders.filter (fun x => x.id == oid) = [] := by
    refine List.filter_eq_nil_iff.mpr ?_
    intro x hx hxe
    exact hfresh (by
      simp only [beq_iff_eq] at hxe
      rw [← hxe]
      exact List.mem_map_of_mem Order.id hx)
  have h2 : [o].filter (fun x => x.id == oid) = [o] := by
    simp [List.filter, ho]
  rw [h1, h2]
  rfl

/-- `place_order` when the address check passes and the item loop aborts:
the result is the routed error, the store is rolled back untouched, and
the lock trace is the loop's. -/
theorem place_order_processed_error (u oid ref od st a lks e)
    (haddr : st.addresses.filter (fun x =>
      x.id == od.delivery_address_id && x.user_id == u) = [a])
    (hproc : processItems st.products st.variants st.inventories 0 []
      od.items = (lks, .error e)) :
    place_order u oid ref od st = ⟨.error (toRouteError e), st, lks, []⟩ := by
  simp only [place_order, haddr, scalar_one_or_none, hproc]

/-- `place_order` when the address check passes, the item loop succeeds
and the order id is fresh: the commit appends the order and its payment,
installs the decremented inventories, and the response is the rebuilt
success payload. -/
theorem place_order_processed_ok (u oid ref od st a lks i' t' b')
    (haddr : st.addresses.filter (fun x =>
      x.id == od.delivery_address_id && x.user_id == u) = [a])
    (hproc : processItems st.products st.variants st.inventories 0 []
      od.items = (lks, .ok (i', t', b')))
    (hfresh : oid ∉ st.orders.map Order.id) :
    (place_order u oid ref od st).state =
      { st with inventories := i',
                orders := st.orders ++ [⟨oid, u, t', a.id, "PENDING", b'⟩],
                payments := st.payments ++
                  [⟨oid, t', "PENDING", "DEBIT_CARD", ref, none⟩] } ∧
    (place_order u oid ref od st).locks = lks ∧
    ∃ resp, (place_order u oid ref od st).response = .ok resp := by
  have hre := reload_ok st.orders oid ⟨oid, u, t', a.id, "PENDING", b'⟩ rfl hfresh
  simp only [place_order, haddr, scalar_one_or_none, hproc, hre]
  exact ⟨trivial, trivial, _, rfl⟩

/-- Any error response of `place_order` (with a fresh order id, as the
`uuid4` key generation guarantees) leaves the store exactly as it was:
the address check is read-only, and the `db.begin()` transaction rolls
every loop write back on abort. -/
theorem place_order_error_rollback (u oid ref od st)
    (hfresh : oid ∉ st.orders.map Order.id) :
    ∀ e, (place_order u oid ref od st).response = .error e →
    (place_order u oid ref od st).state = st := by
  intro e herr
  cases hA : scalar_one_or_none (st.addresses.filter (fun a =>
      a.id == od.delivery_address_id && a.user_id == u)) with
  | error m => simp only [place_order, hA]
  | ok oa =>
    cases oa with
    | none => simp only [place_order, hA]
    | some a =>
      have haddr := scalar_one_or_none_ok_some hA
      cases hR : processItems st.products st.variants st.inventories 0 []
          od.items with
      | mk lks r =>
        cases r with
        | error e' =>
          rw [place_order_processed_error u oid ref od st a lks e' haddr hR]
        | ok out =>
          obtain ⟨i', t', b'⟩ := out
          obtain ⟨_, _, resp, hresp⟩ :=
            place_order_processed_ok u oid ref od st a lks i' t' b'
              haddr hR hfresh
          rw [hresp] at herr
          exact absurd herr (by simp)

theorem filter_map_invariant {α : Type} (f : α → α) (pred : α → Bool)
    (hc : ∀ x, pred (f x) = pred x) (l : List α) :
    (l.map f).filter pred = (l.filter pred).map f := by
  induction l with
  | nil => rfl
  | cons a t ih =>
    simp only [List.map_cons, List.filter_cons, hc a]
    by_cases hp : pred a = true
    · simp [hp, ih]
    · simp only [Bool.not_eq_true] at hp
      simp [hp, ih]

theorem map_idempotent {α : Type} (f : α → α) (hf : ∀ x, f (f x) = f x)
    (l : List α) : (l.map f).map f = l.map f := by
  rw [List.map_map]
  exact List.map_congr_left (fun x _ => hf x)

/-- `paystack_webhook` on a verified `charge.success` delivery whose
reference matches exactly one payment, itself linked to exactly one order:
the handler acknowledges success and commits the completed payment and
confirmed order. -/
theorem paystack_webhook_matched (hh : String → List Nat → String)
    (jl : List Nat → Option Json) (body : List Nat) (st : DBState)
    (ed data refJ : Json) (p : Payment) (o : Order)
    (hj : jl body = some ed)
    (hev : ed.getKey "event" = .ok (.str "charge.success"))
    (hd : ed.getKey "data" = .ok data)
    (hr : data.getKey "reference" = .ok refJ)
    (hp : st.payments.filter (fun q => Json.str q.transaction_id == refJ) = [p])
    (ho : st.orders.filter (fun x => x.id == p.order_id) = [o]) :
    paystack_webhook hh jl body (some (hh PAYSTACK_SECRET_KEY body)) st =
      ⟨.ok ackSuccess,
        { st with
          payments := st.payments.map (fun q =>
            if Json.str q.transaction_id == refJ then
              { q with status := "COMPLETED", gateway_response := some data }
            else q),
          orders := st.orders.map (fun x =>
            if x.id == p.order_id then { x with status := "CONFIRMED" }
            else x) },
        true⟩ := by
  simp only [paystack_webhook]
  rw [if_neg (by simp)]
  rw [hj]
  simp only [hev, hd, hr, hp, ho, scalar_one_or_none, eq_self_iff_true, if_true]

/-- When the address check passes and the loop succeeds, the committed
store and the lock trace of `place_order` are fixed regardless of the
post-commit reload outcome. -/
theorem place_order_ok_parts (u oid : Nat) (ref : String)
    (od : OrderCreateModel) (st : DBState) (a : Address) (lks : List Nat)
    (i' : List Inventory) (t' : Decimal) (b' : List OrderItem)
    (haddr : st.addresses.filter (fun x =>
      x.id == od.delivery_address_id && x.user_id == u) = [a])
    (hproc : processItems st.products st.variants st.inventories 0 []
      od.items = (lks, .ok (i', t', b'))) :
    (place_order u oid ref od st).state.inventories = i' ∧
    (place_order u oid ref od st).state.orders =
      st.orders ++ [⟨oid, u, t', a.id, "PENDING", b'⟩] ∧
    (place_order u oid ref od st).state.payments =
      st.payments ++ [⟨oid, t', "PENDING", "DEBIT_CARD", ref, none⟩] ∧
    (place_order u oid ref od st).locks = lks := by
  simp only [place_order, haddr, scalar_one_or_none, hproc]
  split <;> exact ⟨rfl, rfl, rfl, rfl⟩

/-! ## Claim theorems -/

/-- Claim C5: a webhook request whose signature header is missing, or
differs from the HMAC-SHA512 hex digest of the exact raw body under the
shared secret, is answered 401 Unauthorized, the payload is never handed
to `json.loads`, and the store is untouched. -/
theorem webhook_rejects_invalid_signature (hh : String → List Nat → String)
    (jl : List Nat → Option Json) (body : List Nat) (sig : Option String)
    (st : DBState)
    (hbad : sig = none ∨ ∃ s, sig = some s ∧ s ≠ hh PAYSTACK_SECRET_KEY body) :
    ((paystack_webhook hh jl body sig st).response =
        .error (.http ⟨401, "No signature"⟩) ∨
      (paystack_webhook hh jl body sig st).response =
        .error (.http ⟨401, "Invalid signature"⟩)) ∧
    (paystack_webhook hh jl body sig st).state = st ∧
    (paystack_webhook hh jl body sig st).parsed = false := by
  rcases hbad with hnone | ⟨s, hsome, hne⟩
  · subst hnone
    exact ⟨Or.inl rfl, rfl, rfl⟩
  · subst hsome
    simp only [paystack_webhook]
    rw [if_pos (Ne.symm hne)]
    exact ⟨Or.inr rfl, rfl, rfl⟩

/-- Witness for C5: a concrete delivery with a wrong signature is refused
without parsing or state change. -/
theorem webhook_rejects_invalid_signature_witness :
    ((paystack_webhook hmacConst jLoadsT1 [0] (some "BAD") wStatePending).response =
        .error (.http ⟨401, "No signature"⟩) ∨
      (paystack_webhook hmacConst jLoadsT1 [0] (some "BAD") wStatePending).response =
        .error (.http ⟨401, "Invalid signature"⟩)) ∧
    (paystack_webhook hmacConst jLoadsT1 [0] (some "BAD") wStatePending).state =
      wStatePending ∧
    (paystack_webhook hmacConst jLoadsT1 [0] (some "BAD") wStatePending).parsed =
      false :=
  webhook_rejects_invalid_signature hmacConst jLoadsT1 [0] (some "BAD")
    wStatePending (Or.inr ⟨"BAD", rfl, by decide⟩)

/-- Claim C10: a correctly signed delivery whose body is not a JSON
object with an `event` key — or announces `charge.success` without a
`data` object carrying a `reference` — escapes as an unhandled exception
(an internal error, not the success acknowledgment) and changes no
Payment or Order state. -/
theorem webhook_malformed_body_unhandled (hh : String → List Nat → String)
    (jl : List Nat → Option Json) (body : List Nat) (st : DBState)
    (hbad : malformedBody (jl body) = true) :
    ∃ m, (paystack_webhook hh jl body
        (some (hh PAYSTACK_SECRET_KEY body)) st).response =
        .error (.unhandled m) ∧
      (paystack_webhook hh jl body
        (some (hh PAYSTACK_SECRET_KEY body)) st).state = st := by
  simp only [paystack_webhook]
  rw [if_neg (by simp)]
  cases hj : jl body with
  | none => exact ⟨"JSONDecodeError", rfl, rfl⟩
  | some ed =>
    rw [hj] at hbad
    simp only [malformedBody] at hbad
    simp only
    cases hev : ed.getKey "event" with
    | error m => exact ⟨m, rfl, rfl⟩
    | ok ev =>
      rw [hev] at hbad
      simp only at hbad
      simp only
      by_cases hche : ev = Json.str "charge.success"
      · rw [if_pos hche] at hbad
        simp only [hche, eq_self_iff_true, if_true]
        cases hdata : ed.getKey "data" with
        | error m => exact ⟨m, rfl, rfl⟩
        | ok d =>
          rw [hdata] at hbad
          simp only at hbad
          simp only
          cases href : d.getKey "reference" with
          | error m => exact ⟨m, rfl, rfl⟩
          | ok refJ => rw [href] at hbad; simp at hbad
      · rw [if_neg hche] at hbad
        exact absurd hbad (by simp)

/-- Witness for C10: a correctly signed body parsing to `{}` (no `event`
key) raises a `KeyError` and leaves the store unchanged. -/
theorem webhook_malformed_body_unhandled_witness :
    malformedBody (jLoadsEmpty [0]) = true ∧
    ∃ m, (paystack_webhook hmacConst jLoadsEmpty [0]
        (some (hmacConst PAYSTACK_SECRET_KEY [0])) wStatePending).response =
        .error (.unhandled m) ∧
      (paystack_webhook hmacConst jLoadsEmpty [0]
        (some (hmacConst PAYSTACK_SECRET_KEY [0])) wStatePending).state =
        wStatePending :=
  ⟨by decide,
    webhook_malformed_body_unhandled hmacConst jLoadsEmpty [0] wStatePending
      (by decide)⟩

/-- Claim C4 (amended): for every verified `charge.success` delivery whose
reference matches exactly one Payment, linked to one Order, the handler
acknowledges success and unconditionally sets `Payment.status=COMPLETED`
(storing the event's data payload) and `Order.status=CONFIRMED` — there is
no check that the Payment is currently PENDING, so even a FAILED payment
is overwritten. Delivering the same event a second time reproduces the
same final state, so the COMPLETED/CONFIRMED end state is reached exactly
once. -/
theorem webhook_unconditional_completion_idempotent
    (hh : String → List Nat → String) (jl : List Nat → Option Json)
    (body : List Nat) (st : DBState) (ed data refJ : Json) (p : Payment)
    (o : Order)
    (hj : jl body = some ed)
    (hev : ed.getKey "event" = .ok (.str "charge.success"))
    (hd : ed.getKey "data" = .ok data)
    (hr : data.getKey "reference" = .ok refJ)
    (hp : st.payments.filter (fun q => Json.str q.transaction_id == refJ) = [p])
    (ho : st.orders.filter (fun x => x.id == p.order_id) = [o]) :
    (paystack_webhook hh jl body (some (hh PAYSTACK_SECRET_KEY body)) st).response
        = .ok ackSuccess ∧
    (paystack_webhook hh jl body (some (hh PAYSTACK_SECRET_KEY body)) st).state.payments
        = st.payments.map (fun q =>
            if Json.str q.transaction_id == refJ then
              { q with status := "COMPLETED", gateway_response := some data }
            else q) ∧
    (paystack_webhook hh jl body (some (hh PAYSTACK_SECRET_KEY body)) st).state.orders
        = st.orders.map (fun x =>
            if x.id == p.order_id then { x with status := "CONFIRMED" } else x) ∧
    (paystack_webhook hh jl body (some (hh PAYSTACK_SECRET_KEY body))
        (paystack_webhook hh jl body (some (hh PAYSTACK_SECRET_KEY body)) st).state).state
      = (paystack_webhook hh jl body (some (hh PAYSTACK_SECRET_KEY body)) st).state := by
  have hw := paystack_webhook_matched hh jl body st ed data refJ p o
    hj hev hd hr hp ho
  have hmem : p ∈ st.payments.filter (fun q => Json.str q.transaction_id == refJ) := by
    rw [hp]; exact List.mem_singleton_self p
  have hpred : (Json.str p.transaction_id == refJ) = true :=
    (List.mem_filter.mp hmem).2
  have hfi : ∀ q : Payment,
      (fun q => if Json.str q.transaction_id == refJ then
        { q with status := "COMPLETED", gateway_response := some data }
      else q)
      ((fun q => if Json.str q.transaction_id == refJ then
        { q with status := "COMPLETED", gateway_response := some data }
      else q) q) =
      (fun q => if Json.str q.transaction_id == refJ then
        { q with status := "COMPLETED", gateway_response := some data }
      else q) q := by
    intro q
    by_cases hq : (Json.str q.transaction_id == refJ) = true
    · simp [hq]
    · simp only [Bool.not_eq_true] at hq
      simp [hq]
  have hgi : ∀ x : Order,
      (fun x => if x.id == p.order_id then { x with status := "CONFIRMED" }
        else x)
      ((fun x => if x.id == p.order_id then { x with status := "CONFIRMED" }
        else x) x) =
      (fun x => if x.id == p.order_id then { x with status := "CONFIRMED" }
        else x) x := by
    intro x
    by_cases hx : (x.id == p.order_id) = true
    · simp [hx]
    · simp only [Bool.not_eq_true] at hx
      simp [hx]
  refine ⟨by rw [hw], by rw [hw], by rw [hw], ?_⟩
  rw [hw]
  have hp₁ : (st.payments.map (fun q =>
      if Json.str q.transaction_id == refJ then
        { q with status := "COMPLETED", gateway_response := some data }
      else q)).filter (fun q => Json.str q.transaction_id == refJ) =
      [{ p with status := "COMPLETED", gateway_response := some data }] := by
    rw [filter_map_invariant _ _ (fun x => by
      by_cases hx : (Json.str x.transaction_id == refJ) = true
      · simp [hx]
      · simp only [Bool.not_eq_true] at hx
        simp [hx]), hp]
    simp only [List.map_cons, List.map_nil]
    rw [if_pos hpred]
  have ho₁ : (st.orders.map (fun x =>
      if x.id == p.order_id then { x with status := "CONFIRMED" } else x)).filter
      (fun x => x.id == p.order_id) =
      [if o.id == p.order_id then { o with status := "CONFIRMED" } else o] := by
    rw [filter_map_invariant _ _ (fun x => by
      by_cases hx : (x.id == p.order_id) = true
      · simp [hx]
      · simp only [Bool.not_eq_true] at hx
        simp [hx]), ho]
    rfl
  have hw₂ := paystack_webhook_matched hh jl body
    ⟨st.addresses, st.products, st.variants, st.inventories,
      st.orders.map (fun x =>
        if x.id == p.order_id then { x with status := "CONFIRMED" } else x),
      st.payments.map (fun q =>
        if Json.str q.transaction_id == refJ then
          { q with status := "COMPLETED", gateway_response := some data }
        else q)⟩
    ed data refJ { p with status := "COMPLETED", gateway_response := some data }
    (if o.id == p.order_id then { o with status := "CONFIRMED" } else o)
    hj hev hd hr hp₁ ho₁
  have hmap1 : ((st.payments.map (fun q =>
      if Json.str q.transaction_id == refJ then
        { q with status := "COMPLETED", gateway_response := some data }
      else q)).map (fun q =>
      if Json.str q.transaction_id == refJ then
        { q with status := "COMPLETED", gateway_response := some data }
      else q)) = st.payments.map (fun q =>
      if Json.str q.transaction_id == refJ then
        { q with status := "COMPLETED", gateway_response := some data }
      else q) := map_idempotent _ hfi st.payments
  have hmap2 : ((st.orders.map (fun x =>
      if x.id == p.order_id then { x with status := "CONFIRMED" }
      else x)).map (fun x =>
      if x.id == p.order_id then { x with status := "CONFIRMED" }
      else x)) = st.orders.map (fun x =>
      if x.id == p.order_id then { x with status := "CONFIRMED" }
      else x) := map_idempotent _ hgi st.orders
  have hpo :
      (Payment.mk p.order_id p.amount "COMPLETED" p.method p.transaction_id
        (some data)).order_id = p.order_id := rfl
  rw [hw₂]
  simp only [hpo]
  rw [hmap1, hmap2]

/-- Counterexample to C4 as stated: the payment for reference `T1` is
`FAILED` — not PENDING — yet a verified `charge.success` delivery still
overwrites it to COMPLETED, stores the payload, and confirms the linked
order, instead of being a no-op. -/
theorem webhook_pending_gate_counterexample :
    payFailed.status = "FAILED" ∧
    wStateFailed.payments = [payFailed] ∧
    (paystack_webhook hmacConst jLoadsT1 [0] (some "SIG") wStateFailed).response
      = .ok ackSuccess ∧
    (paystack_webhook hmacConst jLoadsT1 [0] (some "SIG") wStateFailed).state.payments
      = [⟨100, 3600, "COMPLETED", "DEBIT_CARD", "T1", some jData⟩] ∧
    (paystack_webhook hmacConst jLoadsT1 [0] (some "SIG") wStateFailed).state.orders
      = [⟨100, 10, 3600, 1, "CONFIRMED", []⟩] := by
  decide

/-- Witness for C4 (amended): the concrete FAILED payment is overwritten
and the delivery is idempotent on the store. -/
theorem webhook_unconditional_completion_idempotent_witness :
    (paystack_webhook hmacConst jLoadsT1 [0]
        (some (hmacConst PAYSTACK_SECRET_KEY [0])) wStateFailed).response
      = .ok ackSuccess ∧
    (paystack_webhook hmacConst jLoadsT1 [0]
        (some (hmacConst PAYSTACK_SECRET_KEY [0])) wStateFailed).state.payments
      = wStateFailed.payments.map (fun q =>
          if Json.str q.transaction_id == Json.str "T1" then
            { q with status := "COMPLETED", gateway_response := some jData }
          else q) ∧
    (paystack_webhook hmacConst jLoadsT1 [0]
        (some (hmacConst PAYSTACK_SECRET_KEY [0])) wStateFailed).state.orders
      = wStateFailed.orders.map (fun x =>
          if x.id == payFailed.order_id then { x with status := "CONFIRMED" }
          else x) ∧
    (paystack_webhook hmacConst jLoadsT1 [0]
        (some (hmacConst PAYSTACK_SECRET_KEY [0]))
        (paystack_webhook hmacConst jLoadsT1 [0]
          (some (hmacConst PAYSTACK_SECRET_KEY [0])) wStateFailed).state).state
      = (paystack_webhook hmacConst jLoadsT1 [0]
          (some (hmacConst PAYSTACK_SECRET_KEY [0])) wStateFailed).state :=
  webhook_unconditional_completion_idempotent hmacConst jLoadsT1 [0]
    wStateFailed jBody jData (.str "T1") payFailed ordPending rfl
    (by decide) (by decide) (by decide) (by decide) (by decide)

/-- Claim C1: a `place_order` request that fails at any step — including a
failure on a later line after earlier lines were already processed —
aborts the whole transaction: afterwards every inventory row, the orders
table and the payments table equal their pre-request contents, so no
Order, OrderItem or Payment of that request survives. (`oid` is the
freshly generated `uuid4` order key, hence not an existing order id.) -/
theorem place_order_failure_full_rollback (u oid : Nat) (ref : String)
    (od : OrderCreateModel) (st : DBState) (e : PyErr)
    (hfresh : oid ∉ st.orders.map Order.id)
    (herr : (place_order u oid ref od st).response = .error e) :
    (place_order u oid ref od st).state.inventories = st.inventories ∧
    (place_order u oid ref od st).state.orders = st.orders ∧
    (place_order u oid ref od st).state.payments = st.payments := by
  have h := place_order_error_rollback u oid ref od st hfresh e herr
  rw [h]
  exact ⟨rfl, rfl, rfl⟩

/-- Witness for C1: a two-line request whose second line lacks stock rolls
the first line's decrement back too. -/
theorem place_order_failure_full_rollback_witness :
    (place_order 10 100 "REF" ⟨1, [⟨9, none, 1⟩, ⟨7, none, 6⟩]⟩ twoState).response
      = .error (.http ⟨409, "Insufficient stock for product 7"⟩) ∧
    (place_order 10 100 "REF" ⟨1, [⟨9, none, 1⟩, ⟨7, none, 6⟩]⟩ twoState).state.inventories
      = twoState.inventories ∧
    (place_order 10 100 "REF" ⟨1, [⟨9, none, 1⟩, ⟨7, none, 6⟩]⟩ twoState).state.orders
      = twoState.orders ∧
    (place_order 10 100 "REF" ⟨1, [⟨9, none, 1⟩, ⟨7, none, 6⟩]⟩ twoState).state.payments
      = twoState.payments :=
  ⟨by decide,
    place_order_failure_full_rollback 10 100 "REF"
      ⟨1, [⟨9, none, 1⟩, ⟨7, none, 6⟩]⟩ twoState
      (.http ⟨409, "Insufficient stock for product 7"⟩)
      (by decide) (by decide)⟩

/-- Claim C2: a reservation succeeds exactly when the inventory row exists
(and is unique) and covers the requested quantity, in which case that
row's quantity is decremented by exactly the requested quantity; any
failed placement leaves the inventories untouched; and every `place_order`
execution preserves nonnegativity of all inventory quantities. -/
theorem inventory_reserve_exact_and_nonnegative :
    (∀ (ps : List Product) (vs : List ProductVariant) (invs : List Inventory)
        (total : Decimal) (built : List OrderItem) (it : OrderItemCreateModel)
        (invs' : List Inventory) (total' : Decimal) (built' : List OrderItem),
      processItem ps vs invs total built it = .ok (invs', total', built') →
      ∃ inv, invs.filter (fun i => i.product_id == it.product_id) = [inv] ∧
        it.quantity ≤ inv.quantity ∧
        invs' = invs.map (fun i =>
          if i.product_id == it.product_id then
            { i with quantity := i.quantity - it.quantity }
          else i)) ∧
    (∀ (u oid : Nat) (ref : String) (od : OrderCreateModel) (st : DBState)
        (e : PyErr), oid ∉ st.orders.map Order.id →
      (place_order u oid ref od st).response = .error e →
      (place_order u oid ref od st).state.inventories = st.inventories) ∧
    (∀ (u oid : Nat) (ref : String) (od : OrderCreateModel) (st : DBState),
      (∀ i ∈ st.inventories, 0 ≤ i.quantity) →
      ∀ i ∈ (place_order u oid ref od st).state.inventories, 0 ≤ i.quantity) := by
  refine ⟨?_, ?_, ?_⟩
  · intro ps vs invs total built it invs' total' built' h
    obtain ⟨inv, product, pm, hif, hq, _, _, hi, _, _⟩ :=
      processItem_ok_spec ps vs invs total built it invs' total' built' h
    exact ⟨inv, hif, hq, hi⟩
  · intro u oid ref od st e hfresh herr
    rw [place_order_error_rollback u oid ref od st hfresh e herr]
  · intro u oid ref od st hpos i hi
    cases hA : scalar_one_or_none (st.addresses.filter (fun a =>
        a.id == od.delivery_address_id && a.user_id == u)) with
    | error m =>
      simp only [place_order, hA] at hi
      exact hpos i hi
    | ok oa =>
      cases oa with
      | none =>
        simp only [place_order, hA] at hi
        exact hpos i hi
      | some a =>
        cases hR : processItems st.products st.variants st.inventories 0 []
            od.items with
        | mk lks r =>
          cases r with
          | error e =>
            rw [place_order_processed_error u oid ref od st a lks e
              (scalar_one_or_none_ok_some hA) hR] at hi
            exact hpos i hi
          | ok out =>
            obtain ⟨i', t', b'⟩ := out
            obtain ⟨hinv, _, _, _⟩ := place_order_ok_parts u oid ref od st a
              lks i' t' b' (scalar_one_or_none_ok_some hA) hR
            rw [hinv] at hi
            exact processItems_nonneg st.products st.variants od.items
              st.inventories 0 [] lks i' t' b' hR hpos i hi

/-- Witness for C2: a concrete successful reservation decrements 5 to 2,
a concrete failure leaves stock untouched, and the resulting quantities
stay nonnegative. -/
theorem inventory_reserve_exact_and_nonnegative_witness :
    (∃ inv, ([invA5] : List Inventory).filter (fun i => i.product_id == 7)
        = [inv] ∧
      (3 : Int) ≤ inv.quantity ∧
      ([⟨7, 2, 5⟩] : List Inventory) = ([invA5] : List Inventory).map (fun i =>
        if i.product_id == 7 then { i with quantity := i.quantity - 3 }
        else i)) ∧
    (place_order 10 100 "REF" ⟨1, [⟨7, none, 3⟩]⟩ lowState).state.inventories
      = lowState.inventories ∧
    (∀ i ∈ (place_order 10 100 "REF" ⟨1, [⟨7, some 3, 3⟩]⟩ baseState).state.inventories,
      0 ≤ i.quantity) :=
  ⟨inventory_reserve_exact_and_nonnegative.1 [prodA] [varA] [invA5] 0 []
      ⟨7, some 3, 3⟩ [⟨7, 2, 5⟩] 3600 [⟨7, some 3, 3, 1200⟩] (by decide),
    inventory_reserve_exact_and_nonnegative.2.1 10 100 "REF"
      ⟨1, [⟨7, none, 3⟩]⟩ lowState
      (.http ⟨409, "Insufficient stock for product 7"⟩) (by decide) (by decide),
    inventory_reserve_exact_and_nonnegative.2.2 10 100 "REF"
      ⟨1, [⟨7, some 3, 3⟩]⟩ baseState (by decide)⟩

/-- Claim C3: every successful placement commits exactly one new order and
one paired payment; the order's `total_amount` equals
`Σ quantity × unit_price` over its items by exact (integer-scaled decimal)
arithmetic, every item's `unit_price` is its product's `base_price` plus
the variant's `price_modifier` (0 with no variant), and the payment's
`amount` equals the order's `total_amount`. -/
theorem place_order_total_exact (u oid : Nat) (ref : String)
    (od : OrderCreateModel) (st : DBState) (resp : OrderResponseModel)
    (hok : (place_order u oid ref od st).response = .ok resp) :
    ∃ o pmt,
      (place_order u oid ref od st).state.orders = st.orders ++ [o] ∧
      (place_order u oid ref od st).state.payments = st.payments ++ [pmt] ∧
      o.total_amount = sumItems o.items ∧
      pmt.amount = o.total_amount ∧
      pmt.order_id = o.id ∧
      ∀ x ∈ o.items, priceOkB st.products st.variants x = true := by
  cases hA : scalar_one_or_none (st.addresses.filter (fun a =>
      a.id == od.delivery_address_id && a.user_id == u)) with
  | error m =>
    simp only [place_order, hA] at hok
    exact absurd hok (by simp)
  | ok oa =>
    cases oa with
    | none =>
      simp only [place_order, hA] at hok
      exact absurd hok (by simp)
    | some a =>
      cases hR : processItems st.products st.variants st.inventories 0 []
          od.items with
      | mk lks r =>
        cases r with
        | error e =>
          rw [place_order_processed_error u oid ref od st a lks e
            (scalar_one_or_none_ok_some hA) hR] at hok
          exact absurd hok (by simp)
        | ok out =>
          obtain ⟨i', t', b'⟩ := out
          obtain ⟨_, hord, hpay, _⟩ := place_order_ok_parts u oid ref od st a
            lks i' t' b' (scalar_one_or_none_ok_some hA) hR
          obtain ⟨xs, hb, ht, hokx⟩ := processItems_ok_items st.products
            st.variants od.items st.inventories 0 [] lks i' t' b' hR
          rw [List.nil_append] at hb
          subst hb
          refine ⟨⟨oid, u, t', a.id, "PENDING", b'⟩,
            ⟨oid, t', "PENDING", "DEBIT_CARD", ref, none⟩,
            hord, hpay, ?_, rfl, rfl, hokx⟩
          rw [ht]
          exact zero_add _

/-- Witness for C3: the spec §8 example — base 10.00, modifier 2.00,
quantity 3 — totals 36.00 with a matching payment. -/
theorem place_order_total_exact_witness :
    ∃ o pmt,
      (place_order 10 100 "REF" ⟨1, [⟨7, some 3, 3⟩]⟩ baseState).state.orders
        = baseState.orders ++ [o] ∧
      (place_order 10 100 "REF" ⟨1, [⟨7, some 3, 3⟩]⟩ baseState).state.payments
        = baseState.payments ++ [pmt] ∧
      o.total_amount = sumItems o.items ∧
      pmt.amount = o.total_amount ∧
      pmt.order_id = o.id ∧
      ∀ x ∈ o.items, priceOkB baseState.products baseState.variants x = true :=
  place_order_total_exact 10 100 "REF" ⟨1, [⟨7, some 3, 3⟩]⟩ baseState
    ⟨3600, "PENDING", 1, "REF", [⟨"Margherita", some "Large", 3, 1200⟩]⟩
    (by decide)

/-- Counterexample to C6 as stated: a successful two-line request naming
product 9 before product 7 acquires the row locks as `[9, 7]` — the
request order — which is not ascending product-identifier order. -/
theorem place_order_lock_order_counterexample :
    (place_order 10 100 "REF" ⟨1, [⟨9, none, 1⟩, ⟨7, none, 1⟩]⟩ twoState).locks
      = [9, 7] ∧
    ¬ List.Sorted (· ≤ ·) [(9 : Nat), 7] ∧
    (place_order 10 100 "REF" ⟨1, [⟨9, none, 1⟩, ⟨7, none, 1⟩]⟩ twoState).response
      = .ok ⟨1800, "PENDING", 1, "REF",
          [⟨"Pepperoni", none, 1, 800⟩, ⟨"Margherita", none, 1, 1000⟩]⟩ := by
  refine ⟨by decide, ?_, by decide⟩
  simp [List.Sorted]

/-- Claim C6 (amended): the exclusive inventory locks of a successful
`place_order` are acquired in the order the lines appear in the request —
`place_order` performs no sorting by product identifier. -/
theorem place_order_locks_follow_request_order (u oid : Nat) (ref : String)
    (od : OrderCreateModel) (st : DBState) (r : OrderResponseModel)
    (hok : (place_order u oid ref od st).response = .ok r) :
    (place_order u oid ref od st).locks =
      od.items.map OrderItemCreateModel.product_id := by
  cases hA : scalar_one_or_none (st.addresses.filter (fun a =>
      a.id == od.delivery_address_id && a.user_id == u)) with
  | error m =>
    simp only [place_order, hA] at hok
    exact absurd hok (by simp)
  | ok oa =>
    cases oa with
    | none =>
      simp only [place_order, hA] at hok
      exact absurd hok (by simp)
    | some a =>
      cases hR : processItems st.products st.variants st.inventories 0 []
          od.items with
      | mk lks rr =>
        cases rr with
        | error e =>
          rw [place_order_processed_error u oid ref od st a lks e
            (scalar_one_or_none_ok_some hA) hR] at hok
          exact absurd hok (by simp)
        | ok out =>
          obtain ⟨i', t', b'⟩ := out
          obtain ⟨_, _, _, hlks⟩ := place_order_ok_parts u oid ref od st a
            lks i' t' b' (scalar_one_or_none_ok_some hA) hR
          rw [hlks]
          exact processItems_ok_locks st.products st.variants od.items
            st.inventories 0 [] lks (i', t', b') hR

/-- Witness for C6 (amended): the `[9, 7]` request locks `[9, 7]`. -/
theorem place_order_locks_follow_request_order_witness :
    (place_order 10 100 "REF" ⟨1, [⟨9, none, 1⟩, ⟨7, none, 1⟩]⟩ twoState).locks
      = ((⟨1, [⟨9, none, 1⟩, ⟨7, none, 1⟩]⟩ : OrderCreateModel).items.map
          OrderItemCreateModel.product_id) :=
  place_order_locks_follow_request_order 10 100 "REF"
    ⟨1, [⟨9, none, 1⟩, ⟨7, none, 1⟩]⟩ twoState
    ⟨1800, "PENDING", 1, "REF",
      [⟨"Pepperoni", none, 1, 800⟩, ⟨"Margherita", none, 1, 1000⟩]⟩
    (by decide)

/-- Counterexample to C7 as stated: a request with an empty `items` list
passes schema validation, is not rejected by `place_order`, and commits an
order (total 0.00) with a payment — state is touched. -/
theorem empty_items_not_rejected_counterexample :
    OrderCreateModel.valid ⟨1, []⟩ = true ∧
    (place_order 10 100 "REF" ⟨1, []⟩ lowState).response =
      .ok ⟨0, "PENDING", 1, "REF", []⟩ ∧
    (place_order 10 100 "REF" ⟨1, []⟩ lowState).state ≠ lowState ∧
    (place_order 10 100 "REF" ⟨1, []⟩ lowState).state.orders =
      lowState.orders ++ [⟨100, 10, 0, 1, "PENDING", []⟩] := by
  decide

/-- Claim C7 (amended): pydantic validation rejects every request with a
line of quantity ≤ 0 before the route (and hence any state access) runs;
but an empty `items` list passes validation, and when the address check
succeeds `place_order` commits an order with no items and `total_amount`
0 plus a paired payment of amount 0. -/
theorem quantity_validation_and_empty_items :
    (∀ od : OrderCreateModel,
      (∃ it ∈ od.items, it.quantity ≤ 0) → od.valid = false) ∧
    (∀ od : OrderCreateModel, od.items = [] → od.valid = true) ∧
    (∀ (u oid : Nat) (ref : String) (aid : Nat) (st : DBState) (a : Address),
      st.addresses.filter (fun x => x.id == aid && x.user_id == u) = [a] →
      (place_order u oid ref ⟨aid, []⟩ st).state.orders =
        st.orders ++ [⟨oid, u, 0, a.id, "PENDING", []⟩] ∧
      (place_order u oid ref ⟨aid, []⟩ st).state.payments =
        st.payments ++ [⟨oid, 0, "PENDING", "DEBIT_CARD", ref, none⟩]) := by
  refine ⟨?_, ?_, ?_⟩
  · rintro od ⟨it, hmem, hq⟩
    apply List.all_eq_false.mpr
    refine ⟨it, hmem, ?_⟩
    simp only [OrderItemCreateModel.valid, decide_eq_true_eq]
    omega
  · intro od h
    rw [OrderCreateModel.valid, h]
    rfl
  · intro u oid ref aid st a haddr
    obtain ⟨_, hord, hpay, _⟩ := place_order_ok_parts u oid ref ⟨aid, []⟩ st a
      [] st.inventories 0 [] haddr rfl
    exact ⟨hord, hpay⟩

/-- Witness for C7 (amended): a zero-quantity line fails validation; the
empty request passes and commits a zero-total order. -/
theorem quantity_validation_and_empty_items_witness :
    OrderCreateModel.valid ⟨1, [⟨7, none, 0⟩]⟩ = false ∧
    OrderCreateModel.valid ⟨1, []⟩ = true ∧
    ((place_order 10 100 "REF" ⟨1, []⟩ lowState).state.orders =
      lowState.orders ++ [⟨100, 10, 0, 1, "PENDING", []⟩] ∧
    (place_order 10 100 "REF" ⟨1, []⟩ lowState).state.payments =
      lowState.payments ++ [⟨100, 0, "PENDING", "DEBIT_CARD", "REF", none⟩]) :=
  ⟨quantity_validation_and_empty_items.1 ⟨1, [⟨7, none, 0⟩]⟩
      ⟨⟨7, none, 0⟩, by decide, by decide⟩,
    quantity_validation_and_empty_items.2.1 ⟨1, []⟩ rfl,
    quantity_validation_and_empty_items.2.2 10 100 "REF" 1 lowState addr1
      (by decide)⟩

/-- Counterexample to C8 as stated: with 2 units in stock and 3 requested
(the spec's own example), the Conflict detail is exactly
`"Insufficient stock for product 7"` — it names the product but contains
no digit `2`, so the available quantity is not part of the message. -/
theorem insufficient_stock_message_counterexample :
    lowState.inventories = [⟨7, 2, 5⟩] ∧
    (place_order 10 100 "REF" ⟨1, [⟨7, none, 3⟩]⟩ lowState).response =
      .error (.http ⟨409, "Insufficient stock for product 7"⟩) ∧
    ("Insufficient stock for product 7").toList.contains '2' = false ∧
    ("Insufficient stock for product 7").toList.contains '7' = true ∧
    (place_order 10 100 "REF" ⟨1, [⟨7, none, 3⟩]⟩ lowState).state = lowState := by
  decide

/-- Claim C8 (amended): when the first failing line of a placement has no
inventory row or asks for more than its current in-transaction stock, the
whole request fails with a 409 Conflict whose detail names the offending
product (but not the available quantity), and the store — inventories
included — is left exactly as before the request. -/
theorem place_order_insufficient_stock_conflict (u oid : Nat) (ref : String)
    (aid : Nat) (st : DBState) (pre : List OrderItemCreateModel)
    (bad : OrderItemCreateModel) (rest : List OrderItemCreateModel)
    (a : Address) (lks : List Nat) (i' : List Inventory) (t' : Decimal)
    (b' : List OrderItem)
    (haddr : st.addresses.filter (fun x =>
      x.id == aid && x.user_id == u) = [a])
    (hpre : processItems st.products st.variants st.inventories 0 [] pre =
      (lks, .ok (i', t', b')))
    (hbad : i'.filter (fun i => i.product_id == bad.product_id) = [] ∨
      ∃ inv, i'.filter (fun i => i.product_id == bad.product_id) = [inv] ∧
        inv.quantity < bad.quantity) :
    (place_order u oid ref ⟨aid, pre ++ bad :: rest⟩ st).response =
      .error (.http ⟨409, insufficientStockDetail bad.product_id⟩) ∧
    (place_order u oid ref ⟨aid, pre ++ bad :: rest⟩ st).state = st := by
  have hbadstep : processItem st.products st.variants i' t' b' bad =
      .error (.http ⟨409, insufficientStockDetail bad.product_id⟩) := by
    rcases hbad with hnone | ⟨inv, hfil, hlt⟩
    · simp only [processItem, hnone, scalar_one_or_none]
    · simp only [processItem, hfil, scalar_one_or_none]
      rw [if_pos hlt]
  have hcons : processItems st.products st.variants i' t' b' (bad :: rest) =
      ([bad.product_id],
        .error (.http ⟨409, insufficientStockDetail bad.product_id⟩)) := by
    simp only [processItems, hbadstep]
  have hfull : processItems st.products st.variants st.inventories 0 []
      (pre ++ bad :: rest) =
      (lks ++ [bad.product_id],
        .error (.http ⟨409, insufficientStockDetail bad.product_id⟩)) := by
    rw [processItems_append_ok st.products st.variants pre st.inventories 0 []
      lks i' t' b' (bad :: rest) hpre, hcons]
  have h := place_order_processed_error u oid ref ⟨aid, pre ++ bad :: rest⟩ st
    a (lks ++ [bad.product_id])
    (.http ⟨409, insufficientStockDetail bad.product_id⟩) haddr hfull
  rw [h]
  exact ⟨rfl, rfl⟩

/-- Witness for C8 (amended): the spec §8 scenario (2 in stock, 3 asked)
conflicts naming product 7 and leaves the store unchanged. -/
theorem place_order_insufficient_stock_conflict_witness :
    (place_order 10 100 "REF" ⟨1, [] ++ ⟨7, none, 3⟩ :: []⟩ lowState).response =
      .error (.http ⟨409, insufficientStockDetail 7⟩) ∧
    (place_order 10 100 "REF" ⟨1, [] ++ ⟨7, none, 3⟩ :: []⟩ lowState).state =
      lowState :=
  place_order_insufficient_stock_conflict 10 100 "REF" 1 lowState []
    ⟨7, none, 3⟩ [] addr1 [] lowState.inventories 0 [] (by decide) rfl
    (Or.inr ⟨⟨7, 2, 5⟩, by decide, by decide⟩)

/-- Claim C9 (code divergence): a fully successful placement publishes no
event at all — `place_order` returns after the commit without ever calling
`publish_order_created_event` (whose one call would have traced its order
id), so the claimed exactly-once post-commit publication does not happen. -/
theorem place_order_never_publishes :
    (place_order 10 100 "REF" ⟨1, [⟨7, some 3, 3⟩]⟩ baseState).response =
      .ok ⟨3600, "PENDING", 1, "REF", [⟨"Margherita", some "Large", 3, 1200⟩]⟩ ∧
    (place_order 10 100 "REF" ⟨1, [⟨7, some 3, 3⟩]⟩ baseState).events = [] ∧
    publish_order_created_event 100 = [100] := by
  decide

end Pizza
